import Mathlib

/-!
Shallow embedding of the Vigil endpoint monitor's correlation and trust
engine (`src/engine.rs`, the ETW file callback of `src/etw.rs`, and the
config normalization of `src/config.rs`).

Modelling conventions:
- Monotonic time (`Instant`) is a `Nat` counting milliseconds, passed
  explicitly to every operation that calls `Instant::now()` in the source.
  `Duration::from_secs(10)` is `10000`, `Duration::from_secs(60)` is
  `60000`, `suppress_ms` is already in milliseconds.
  `now.duration_since(prev)` is truncated subtraction `now - prev`,
  matching the saturating behaviour of `Instant::duration_since`.
- `HashMap` is modelled as an association list with first-match lookup;
  insertion removes any previous binding of the key, so keys are unique.
- `HashSet<u32>` is modelled as a duplicate-free `List Nat`.
- Rust `String::to_lowercase` is modelled as ASCII lowercasing, which the
  repository's design notes state is the intended folding for paths.
- The crossbeam alert channel is modelled inside the engine state as the
  list of alerts successfully enqueued plus an `sink_open` flag;
  `Sender::send` succeeds exactly when the receiving side is open, and the
  engine discards its result (`let _ = self.alert_tx.send(...)`).
- External collaborators are parameters: `verify` is
  `sigcheck::verify_file_signature` (Trust Oracle), `os_image` is
  `process::get_process_image_path`, and `dk` is the 64-bit
  `DefaultHasher` used by `Engine::dedupe_key` (deterministic but with
  unspecified values, so it is kept abstract).
- The wall-clock `ts_unix` field of `Alert::new` is passed as an explicit
  `ts_unix` argument; it never affects control flow.
-/

set_option autoImplicit false

namespace Vigil

/-! ### Strings: ASCII lowercase, substring and suffix tests -/

/-- ASCII lowercase of one character (`A`..`Z` mapped to `a`..`z`). -/
def lowerChar (c : Char) : Char :=
  if 65 ≤ c.toNat ∧ c.toNat ≤ 90 then Char.ofNat (c.toNat + 32) else c

/-- ASCII lowercase of a string; models `str::to_lowercase` on paths. -/
def lowerStr (s : String) : String :=
  ⟨s.data.map lowerChar⟩

/-- `startsL pat l`: `pat` is an initial segment of `l`. -/
def startsL : List Char → List Char → Bool
  | [], _ => true
  | _ :: _, [] => false
  | a :: as, b :: bs => a == b && startsL as bs

/-- `containsSub pat hay`: `pat` occurs contiguously inside `hay`;
models `str::contains`. -/
def containsSub (pat : List Char) : List Char → Bool
  | [] => pat.isEmpty
  | c :: tl => startsL pat (c :: tl) || containsSub pat tl

/-- `s.contains(pat)` on strings. -/
def strContainsSub (s pat : String) : Bool :=
  containsSub pat.data s.data

/-- `s.ends_with(suf)` on strings. -/
def strEndsWith (s suf : String) : Bool :=
  startsL suf.data.reverse s.data.reverse

/-! ### Association-list maps (model of `HashMap`) -/

/-- First-match lookup; models `HashMap::get`. -/
def lookupA {α : Type} (l : List (Nat × α)) (k : Nat) : Option α :=
  match l with
  | [] => none
  | (k', v) :: rest => if k' = k then some v else lookupA rest k

/-- Insert-or-replace; models `HashMap::insert`.  The new binding is put in
front and any previous binding of the key is removed, keeping keys unique. -/
def insertA {α : Type} (l : List (Nat × α)) (k : Nat) (v : α) : List (Nat × α) :=
  (k, v) :: l.filter (fun p => p.1 != k)

/-- Key removal; models `HashMap::remove`. -/
def eraseA {α : Type} (l : List (Nat × α)) (k : Nat) : List (Nat × α) :=
  l.filter (fun p => p.1 != k)

/-- Duplicate-free insertion into a pid set; models `HashSet::insert`. -/
def insertPid (s : List Nat) (pid : Nat) : List Nat :=
  if pid ∈ s then s else pid :: s

/-! ### Data model (`config.rs`, `alerts.rs`, `engine.rs`) -/

/-- `sigcheck::TrustResult`. -/
structure TrustResult where
  is_signed : Bool
  is_trusted : Bool
  signer_subject : Option String
  deriving DecidableEq

/-- `engine::ProcMeta`. -/
structure ProcMeta where
  image : String
  ts : Nat
  is_trusted_signed : Bool
  signer_subject : Option String
  deriving DecidableEq

/-- `config::ProtectedRule`. -/
structure ProtectedRule where
  substring : String
  name : String
  deriving DecidableEq

/-- `config::GeneralConfig`. -/
structure GeneralConfig where
  quiet : Bool
  jsonl : Bool
  suppress_ms : Nat
  deriving DecidableEq

/-- `config::WatchConfig` (`protected` is a Lean keyword, hence
`protected_rules`). -/
structure WatchConfig where
  protected_rules : List ProtectedRule
  protected_substrings : List String
  deriving DecidableEq

/-- `config::AllowlistConfig`. -/
structure AllowlistConfig where
  signer_subject_allow : List String
  process_name_allow : List String
  deriving DecidableEq

/-- `config::Config`. -/
structure Config where
  general : GeneralConfig
  watch : WatchConfig
  allowlist : AllowlistConfig
  deriving DecidableEq

/-- The normalization `Config::load` performs after parsing the TOML text:
lower-case the rule substrings and both allowlists, and when `protected` is
empty but `protected_substrings` is not, derive one rule per legacy
substring with `name = substring`. -/
def Config.load_fold (cfg : Config) : Config :=
  let watch1 : WatchConfig :=
    { protected_rules :=
        cfg.watch.protected_rules.map fun r => { r with substring := lowerStr r.substring }
      protected_substrings := cfg.watch.protected_substrings.map lowerStr }
  let allow1 : AllowlistConfig :=
    { signer_subject_allow := cfg.allowlist.signer_subject_allow.map lowerStr
      process_name_allow := cfg.allowlist.process_name_allow.map lowerStr }
  let watch2 : WatchConfig :=
    if watch1.protected_rules = [] ∧ watch1.protected_substrings ≠ [] then
      { watch1 with
        protected_rules := watch1.protected_substrings.map fun s => ⟨s, s⟩ }
    else watch1
  { cfg with watch := watch2, allowlist := allow1 }

/-- `alerts::Alert` (the `ts_unix` wall-clock stamp is the first field, as
in `Alert::new`). -/
structure Alert where
  ts_unix : Nat
  pid : Nat
  process : String
  target : String
  data_name : String
  event_id : Nat
  kind : String
  note : String
  deriving DecidableEq

/-- `engine::Engine`: the five maps plus the alert channel.  The channel's
sending half is modelled by `sink_open` (receiver still alive) and `sink`
(alerts successfully enqueued, in order). -/
structure Engine where
  cfg : Config
  proc_cache : List (Nat × ProcMeta)
  filekey_cache : List (Nat × String)
  last_alert : List (Nat × Nat)
  whitelisted_file_objects : List (Nat × List Nat)
  sink_open : Bool
  sink : List Alert
  deriving DecidableEq

/-! ### Engine methods (`engine.rs`) -/

/-- `Engine::trust_for_path`. -/
def Engine.trust_for_path (verify : String → TrustResult) (e : Engine)
    (path : String) : TrustResult :=
  let trust := verify path
  if trust.is_signed = false then
    { is_signed := false, is_trusted := false, signer_subject := none }
  else if e.cfg.allowlist.signer_subject_allow ≠ [] then
    let subj := lowerStr (trust.signer_subject.getD "")
    let ok := e.cfg.allowlist.signer_subject_allow.any fun needle =>
      strContainsSub subj needle
    { is_signed := true, is_trusted := ok, signer_subject := trust.signer_subject }
  else
    { is_signed := true, is_trusted := true, signer_subject := trust.signer_subject }

/-- `Engine::on_process_start`. -/
def Engine.on_process_start (verify : String → TrustResult) (e : Engine)
    (now pid : Nat) (image : String) (_cmdline : Option String) : Engine :=
  let low := lowerStr image
  if !strEndsWith low ".exe" then e
  else
    let trust := e.trust_for_path verify image
    let meta : ProcMeta :=
      { image := image, ts := now,
        is_trusted_signed := trust.is_trusted,
        signer_subject := trust.signer_subject }
    { e with proc_cache := insertA e.proc_cache pid meta }

/-- `Engine::on_file_name_mapping`. -/
def Engine.on_file_name_mapping (e : Engine) (file_key : Nat) (file_name : String) : Engine :=
  { e with filekey_cache := insertA e.filekey_cache file_key file_name }

/-- `Engine::clear_file_key`. -/
def Engine.clear_file_key (e : Engine) (file_key : Nat) : Engine :=
  { e with filekey_cache := eraseA e.filekey_cache file_key }

/-- `Engine::resolve_file_key`. -/
def Engine.resolve_file_key (e : Engine) (file_key : Nat) : Option String :=
  lookupA e.filekey_cache file_key

/-- `Engine::resolve_process_image`; returns the image and the (possibly
refreshed) engine state.  `os_image` models `process::get_process_image_path`. -/
def Engine.resolve_process_image (os_image : Nat → Option String) (e : Engine)
    (now pid : Nat) : String × Engine :=
  if pid = 0 ∨ pid = 4 then ("SYSTEM", e)
  else
    let refresh : String × Engine :=
      let img := (os_image pid).getD "unknown"
      let meta : ProcMeta :=
        { image := img, ts := now, is_trusted_signed := false, signer_subject := none }
      (img, { e with proc_cache := insertA e.proc_cache pid meta })
    match lookupA e.proc_cache pid with
    | some meta => if now - meta.ts ≤ 10000 then (meta.image, e) else refresh
    | none => refresh

/-- `Engine::match_protected_rule`'s loop body over the rule list. -/
def findRule (p : String) : List ProtectedRule → Option (String × String)
  | [] => none
  | r :: rest =>
    if strContainsSub p r.substring then some (r.name, r.substring)
    else findRule p rest

/-- `Engine::match_protected_rule`. -/
def Engine.match_protected_rule (e : Engine) (path : String) : Option (String × String) :=
  findRule (lowerStr path) e.cfg.watch.protected_rules

/-- `Engine::is_legacy_allowlisted_process_name`. -/
def Engine.is_legacy_allowlisted_process_name (e : Engine) (proc_path : String) : Bool :=
  let p := lowerStr proc_path
  e.cfg.allowlist.process_name_allow.any fun suffix => strEndsWith p suffix

/-- `Engine::is_pid_trusted`. -/
def Engine.is_pid_trusted (e : Engine) (now pid : Nat) (proc_path : String) : Bool :=
  match lookupA e.proc_cache pid with
  | some meta =>
    if now - meta.ts ≤ 60000 && meta.is_trusted_signed then true
    else e.is_legacy_allowlisted_process_name proc_path
  | none => e.is_legacy_allowlisted_process_name proc_path

/-- `Engine::learn_whitelisted_file_object`. -/
def Engine.learn_whitelisted_file_object (e : Engine) (file_object pid : Nat) : Engine :=
  if file_object = 0 ∨ pid = 0 ∨ pid = 4 then e
  else
    let s := (lookupA e.whitelisted_file_objects file_object).getD []
    { e with whitelisted_file_objects :=
        insertA e.whitelisted_file_objects file_object (insertPid s pid) }

/-- `Engine::whitelisted_file_object_owner`. -/
def Engine.whitelisted_file_object_owner (e : Engine) (file_object : Nat) : Option (List Nat) :=
  lookupA e.whitelisted_file_objects file_object

/-- `Engine::should_suppress`.  `dk` is `Engine::dedupe_key`.  Returns the
decision together with the engine whose `last_alert` map was updated. -/
def Engine.should_suppress (dk : Nat → String → Nat) (e : Engine)
    (now pid : Nat) (target : String) : Bool × Engine :=
  let key := dk pid target
  let suppress := e.cfg.general.suppress_ms
  match lookupA e.last_alert key with
  | some prev =>
    if now - prev < suppress then (true, e)
    else
      let m1 := insertA e.last_alert key now
      let m2 := if m1.length > 50000 then m1.filter (fun p => now - p.2 < suppress * 8) else m1
      (false, { e with last_alert := m2 })
  | none =>
    let m1 := insertA e.last_alert key now
    let m2 := if m1.length > 50000 then m1.filter (fun p => now - p.2 < suppress * 8) else m1
    (false, { e with last_alert := m2 })

/-- `Sender::send` on the alert channel followed by discarding the result:
enqueue when the receiving side is open, silently drop otherwise. -/
def Engine.send_alert (e : Engine) (a : Alert) : Engine :=
  if e.sink_open then { e with sink := e.sink ++ [a] } else e

/-- `Engine::alert`. -/
def Engine.alert (dk : Nat → String → Nat) (e : Engine) (now ts_unix pid : Nat)
    (process target data_name : String) (event_id : Nat) (kind note : String) : Engine :=
  let r := e.should_suppress dk now pid target
  if r.1 then r.2
  else r.2.send_alert
    { ts_unix := ts_unix, pid := pid, process := process, target := target,
      data_name := data_name, event_id := event_id, kind := kind, note := note }

/-! ### The ETW file callback (`etw.rs`, `run_trace`'s `file_cb`) -/

/-- A decoded kernel-file event record: the event id, the emitting pid and
the three optional properties `file_cb` parses (`FileKey`, `FileObject`,
`FileName`).  A `none` property models a failed `try_parse`. -/
structure FileEvent where
  event_id : Nat
  pid : Nat
  file_key_prop : Option Nat
  file_object_prop : Option Nat
  file_name_prop : Option String
  deriving DecidableEq

/-- `file_key`: `parser.try_parse("FileKey").or_else(|_| try_parse("FileObject")).unwrap_or(0)`. -/
def FileEvent.file_key (ev : FileEvent) : Nat :=
  match ev.file_key_prop with
  | some k => k
  | none => ev.file_object_prop.getD 0

/-- `file_object`: `parser.try_parse("FileObject").unwrap_or(0)`. -/
def FileEvent.file_object (ev : FileEvent) : Nat :=
  ev.file_object_prop.getD 0

/-- Target resolution of the access path: inline `FileName` if parsed,
otherwise the file-key cache when `file_key ≠ 0`. -/
def Engine.target_of (e : Engine) (ev : FileEvent) : Option String :=
  match ev.file_name_prop with
  | some n => some n
  | none => if ev.file_key ≠ 0 then e.resolve_file_key ev.file_key else none

/-- `run_trace`'s `file_cb`: event-id dispatch followed by the file-access
decision tree. -/
def Engine.file_cb (dk : Nat → String → Nat) (os_image : Nat → Option String)
    (e : Engine) (now ts_unix : Nat) (ev : FileEvent) : Engine :=
  if ev.event_id ≠ 12 ∧ ev.event_id ≠ 0 ∧ ev.event_id ≠ 65 ∧ ev.event_id ≠ 66 then e
  else if ev.event_id = 0 then
    if ev.file_key = 0 then e
    else
      match ev.file_name_prop with
      | none => e
      | some file_name => e.on_file_name_mapping ev.file_key file_name
  else if ev.event_id = 65 ∨ ev.event_id = 66 then
    if ev.file_key ≠ 0 then e.clear_file_key ev.file_key else e
  else
    match e.target_of ev with
    | none => e
    | some target =>
      match e.match_protected_rule target with
      | none => e
      | some (data_name, _) =>
        let pr := e.resolve_process_image os_image now ev.pid
        let proc_path := pr.1
        let e1 := pr.2
        if e1.is_pid_trusted now ev.pid proc_path then
          if ev.file_object ≠ 0 then
            e1.learn_whitelisted_file_object ev.file_object ev.pid
          else e1
        else if ev.file_object != 0 &&
            (match e1.whitelisted_file_object_owner ev.file_object with
             | some owners => !owners.isEmpty
             | none => false) then
          e1.alert dk now ts_unix ev.pid proc_path target data_name ev.event_id
            "suspicious_whitelisted_handle_access"
            "untrusted process touched protected resource via whitelisted file object"
        else
          e1.alert dk now ts_unix ev.pid proc_path target data_name ev.event_id
            "protected_resource_access"
            "untrusted process attempted access to protected resource"

/-! ### Engine operations as a step relation -/

/-- One invocation of a public engine entry point, with the times the
operation would read from the clocks. -/
inductive EngOp where
  | procStart (now pid : Nat) (image : String) (cmdline : Option String) : EngOp
  | nameBind (file_key : Nat) (file_name : String) : EngOp
  | keyClear (file_key : Nat) : EngOp
  | wlLearn (file_object pid : Nat) : EngOp
  | alertCall (now ts_unix pid : Nat) (process target data_name : String)
      (event_id : Nat) (kind note : String) : EngOp
  | fileAccess (now ts_unix : Nat) (ev : FileEvent) : EngOp
  deriving DecidableEq

/-- Apply one engine operation. -/
def Engine.step (dk : Nat → String → Nat) (verify : String → TrustResult)
    (os_image : Nat → Option String) (e : Engine) : EngOp → Engine
  | .procStart now pid image cmdline => e.on_process_start verify now pid image cmdline
  | .nameBind file_key file_name => e.on_file_name_mapping file_key file_name
  | .keyClear file_key => e.clear_file_key file_key
  | .wlLearn file_object pid => e.learn_whitelisted_file_object file_object pid
  | .alertCall now ts_unix pid process target data_name event_id kind note =>
      e.alert dk now ts_unix pid process target data_name event_id kind note
  | .fileAccess now ts_unix ev => e.file_cb dk os_image now ts_unix ev

/-- Run a list of operations left to right. -/
def Engine.run (dk : Nat → String → Nat) (verify : String → TrustResult)
    (os_image : Nat → Option String) (e : Engine) (ops : List EngOp) : Engine :=
  ops.foldl (Engine.step dk verify os_image) e

/-- `binds_key k op`: the operation invokes `on_file_name_mapping(k, _)`
(directly, or through the `file_cb` filename-bind branch). -/
def binds_key (k : Nat) : EngOp → Bool
  | .nameBind k' _ => k' == k
  | .fileAccess _ _ ev =>
      ev.event_id == 0 && ev.file_key == k && ev.file_key != 0 &&
        !ev.file_name_prop.isNone
  | _ => false

/-- The set of pids the Whitelisted File-Object Registry records for a
file object (empty when the object is unknown). -/
def Engine.wl_set (e : Engine) (file_object : Nat) : List Nat :=
  (lookupA e.whitelisted_file_objects file_object).getD []

/-! ### Shared concrete fixtures for witnesses and counterexamples -/

/-- A concrete stand-in for `Engine::dedupe_key`. -/
def dkZero : Nat → String → Nat := fun _ _ => 0

/-- A Trust Oracle that reports everything unsigned. -/
def verifyUnsigned : String → TrustResult := fun _ => ⟨false, false, none⟩

/-- An OS image lookup that always fails. -/
def osImageNone : Nat → Option String := fun _ => none

/-- An OS image lookup that reports a fixed signed binary. -/
def osImageSigned : Nat → Option String := fun _ => some "c:\\signed.exe"

/-- The configuration of the spec's end-to-end scenarios: one protected
rule for the Chrome password store, no allowlists, default suppression. -/
def cfgChrome : Config :=
  { general := ⟨true, true, 1500⟩,
    watch := ⟨[⟨"login data", "Chrome Passwords"⟩], []⟩,
    allowlist := ⟨[], []⟩ }

/-- An otherwise-empty engine over `cfgChrome` with an open sink. -/
def engChrome : Engine :=
  { cfg := cfgChrome, proc_cache := [], filekey_cache := [], last_alert := [],
    whitelisted_file_objects := [], sink_open := true, sink := [] }

/-- A Trust Oracle reporting a fixed Microsoft-signed binary. -/
def verifyMicrosoft : String → TrustResult :=
  fun _ => ⟨true, true, some "Microsoft Windows Publisher"⟩

/-- `engChrome` with the signer-subject allowlist `["microsoft"]`. -/
def engMicrosoft : Engine :=
  { engChrome with cfg := { cfgChrome with allowlist := ⟨["microsoft"], []⟩ } }

/-- `engChrome` with a trusted `ProcMeta` for pid 100 observed at time 0. -/
def engTrustedMeta : Engine :=
  { engChrome with
    proc_cache := [(100, ⟨"c:\\signed.exe", 0, true, some "Microsoft Windows Publisher"⟩)] }

/-- A canonical protected-target access event from pid 100 (inline file
name, no file key or object). -/
def evLoginData : FileEvent :=
  ⟨12, 100, none, none, some "C:\\Users\\a\\Login Data"⟩

/-- `engChrome` with the legacy process-name allowlist `["system"]`. -/
def engSystemAllow : Engine :=
  { engChrome with cfg := { cfgChrome with allowlist := ⟨[], ["system"]⟩ } }

/-- A protected-target access from pid 4 carrying file object 7. -/
def evSystemFo : FileEvent :=
  ⟨12, 4, none, some 7, some "C:\\Users\\a\\Login Data"⟩

/-- Unknown pid 300 later touches a protected target via the same file
object 7 that the trusted SYSTEM pid used. -/
def evIntruder7 : FileEvent :=
  ⟨12, 300, none, some 7, some "C:\\b\\Login Data"⟩

/-- `engChrome` with the sink's receiving side closed. -/
def engClosed : Engine :=
  { engChrome with sink_open := false }

/-- `engChrome` with a trusted `ProcMeta` for pid 200 observed at time 0. -/
def engTrusted200 : Engine :=
  { engChrome with proc_cache := [(200, ⟨"c:\\good.exe", 0, true, none⟩)] }

/-- Trusted pid 200 touches the protected target via file object 171. -/
def evTrusted171 : FileEvent :=
  ⟨12, 200, none, some 171, some "C:\\a\\Login Data"⟩

/-- Unknown pid 300 later touches a protected target via the same file
object 171. -/
def evIntruder171 : FileEvent :=
  ⟨12, 300, none, some 171, some "C:\\b\\Login Data"⟩

/-- A `last_alert` map holding 50 001 distinct keys, all stamped at
time 0.  Kept irreducible so elaboration reasons about it by its defining
equation instead of evaluating fifty thousand cells. -/
@[irreducible] def bigLastAlert : List (Nat × Nat) :=
  (List.range 50001).map fun i => (i + 1, 0)

/-- `engChrome` whose dedup map is at the eviction threshold. -/
def engBig : Engine :=
  { engChrome with last_alert := bigLastAlert }

/-! ### Association-map lemmas -/

theorem lookupA_insertA_self {α : Type} (l : List (Nat × α)) (k : Nat) (v : α) :
    lookupA (insertA l k v) k = some v := by
  simp [insertA, lookupA]

theorem lookupA_filter_ne {α : Type} (l : List (Nat × α)) (k' k : Nat) (h : k' ≠ k) :
    lookupA (l.filter fun p => p.1 != k') k = lookupA l k := by
  induction l with
  | nil => rfl
  | cons p tl ih =>
    by_cases hp : p.1 = k'
    · have hpk : p.1 ≠ k := by simpa [hp] using h
      simp [List.filter_cons, hp, lookupA, hpk, h, ih]
    · simp [List.filter_cons, hp, lookupA, ih]

theorem lookupA_insertA_ne {α : Type} (l : List (Nat × α)) (k' k : Nat) (v : α)
    (h : k' ≠ k) : lookupA (insertA l k' v) k = lookupA l k := by
  simp [insertA, lookupA, h, lookupA_filter_ne l k' k h]

theorem lookupA_filter_none {α : Type} (l : List (Nat × α)) (p : Nat × α → Bool)
    (k : Nat) (h : lookupA l k = none) : lookupA (l.filter p) k = none := by
  induction l with
  | nil => rfl
  | cons q tl ih =>
    simp only [lookupA] at h
    by_cases hq : q.1 = k
    · simp [hq] at h
    · simp only [hq, if_false] at h
      by_cases hp : p q
      · simp [List.filter_cons, hp, lookupA, hq, ih h]
      · simp [List.filter_cons, hp, ih h]

theorem lookupA_eraseA_self {α : Type} (l : List (Nat × α)) (k : Nat) :
    lookupA (eraseA l k) k = none := by
  induction l with
  | nil => rfl
  | cons p tl ih =>
    by_cases hp : p.1 = k
    · simpa [eraseA, List.filter_cons, hp] using ih
    · simpa [eraseA, List.filter_cons, hp, lookupA] using ih

/-! ### State-shape lemmas: which fields each operation can touch -/

theorem on_process_start_shape (verify : String → TrustResult) (e : Engine)
    (now pid : Nat) (image : String) (c : Option String) :
    ∃ pc, e.on_process_start verify now pid image c = { e with proc_cache := pc } := by
  unfold Engine.on_process_start
  dsimp only
  split
  · exact ⟨e.proc_cache, rfl⟩
  · exact ⟨_, rfl⟩

theorem resolve_process_image_shape (os_image : Nat → Option String) (e : Engine)
    (now pid : Nat) :
    ∃ pc, (e.resolve_process_image os_image now pid).2 = { e with proc_cache := pc } := by
  unfold Engine.resolve_process_image
  dsimp only
  split
  · exact ⟨e.proc_cache, rfl⟩
  · split
    · split
      · exact ⟨e.proc_cache, rfl⟩
      · exact ⟨_, rfl⟩
    · exact ⟨_, rfl⟩

theorem learn_whitelisted_file_object_shape (e : Engine) (fo pid : Nat) :
    ∃ wl, e.learn_whitelisted_file_object fo pid
      = { e with whitelisted_file_objects := wl } := by
  unfold Engine.learn_whitelisted_file_object
  dsimp only
  split
  · exact ⟨e.whitelisted_file_objects, rfl⟩
  · exact ⟨_, rfl⟩

theorem should_suppress_shape (dk : Nat → String → Nat) (e : Engine)
    (now pid : Nat) (target : String) :
    ∃ la, (e.should_suppress dk now pid target).2 = { e with last_alert := la } := by
  unfold Engine.should_suppress
  dsimp only
  split
  · split
    · exact ⟨e.last_alert, rfl⟩
    · exact ⟨_, rfl⟩
  · exact ⟨_, rfl⟩

theorem send_alert_shape (e : Engine) (a : Alert) :
    ∃ sk, e.send_alert a = { e with sink := sk } := by
  unfold Engine.send_alert
  split
  · exact ⟨_, rfl⟩
  · exact ⟨e.sink, rfl⟩

theorem alert_shape (dk : Nat → String → Nat) (e : Engine) (now ts_unix pid : Nat)
    (process target data_name : String) (event_id : Nat) (kind note : String) :
    ∃ la sk, e.alert dk now ts_unix pid process target data_name event_id kind note
      = { e with last_alert := la, sink := sk } := by
  unfold Engine.alert
  dsimp only
  obtain ⟨la, hla⟩ := should_suppress_shape dk e now pid target
  split
  · exact ⟨la, e.sink, by rw [hla]⟩
  · obtain ⟨sk, hsk⟩ := send_alert_shape (e.should_suppress dk now pid target).2
      { ts_unix := ts_unix, pid := pid, process := process, target := target,
        data_name := data_name, event_id := event_id, kind := kind, note := note }
    exact ⟨la, sk, by rw [hsk, hla]⟩

/-! ### Suppression lemmas -/

/-- The suppression decision looks only at the dedup key's previous
timestamp and the configured window. -/
theorem should_suppress_fst (dk : Nat → String → Nat) (e : Engine)
    (now pid : Nat) (target : String) :
    (e.should_suppress dk now pid target).1 =
      (match lookupA e.last_alert (dk pid target) with
       | some prev => decide (now - prev < e.cfg.general.suppress_ms)
       | none => false) := by
  unfold Engine.should_suppress
  dsimp only
  split
  · rename_i prev heq
    split <;> simp [*]
  · rfl

/-- A suppressed call leaves the engine untouched. -/
theorem should_suppress_true_snd (dk : Nat → String → Nat) (e : Engine)
    (now pid : Nat) (target : String)
    (h : (e.should_suppress dk now pid target).1 = true) :
    (e.should_suppress dk now pid target).2 = e := by
  unfold Engine.should_suppress at h ⊢
  dsimp only at h ⊢
  split at h
  · split at h
    · simp [*]
    · simp at h
  · simp at h

/-- A non-suppressed call records `now` under the key and then possibly
evicts stale entries. -/
theorem should_suppress_false_last_alert (dk : Nat → String → Nat) (e : Engine)
    (now pid : Nat) (target : String)
    (h : (e.should_suppress dk now pid target).1 = false) :
    ((e.should_suppress dk now pid target).2).last_alert =
      (let m1 := insertA e.last_alert (dk pid target) now
       if m1.length > 50000 then
         m1.filter (fun p => now - p.2 < e.cfg.general.suppress_ms * 8)
       else m1) := by
  unfold Engine.should_suppress at h ⊢
  dsimp only at h ⊢
  split at h
  · split at h
    · simp at h
    · rename_i prev heq hlt
      simp [hlt]
  · rfl

/-- After a non-suppressed call at `t0`, the key maps to `t0` (or, in the
degenerate `suppress_ms = 0` configuration, may have been evicted again). -/
theorem should_suppress_record (dk : Nat → String → Nat) (e : Engine)
    (t0 pid : Nat) (target : String)
    (h : (e.should_suppress dk t0 pid target).1 = false) :
    lookupA ((e.should_suppress dk t0 pid target).2).last_alert (dk pid target) = some t0 ∨
      (e.cfg.general.suppress_ms = 0 ∧
       lookupA ((e.should_suppress dk t0 pid target).2).last_alert (dk pid target) = none) := by
  rw [should_suppress_false_last_alert dk e t0 pid target h]
  dsimp only
  split
  · by_cases hw : e.cfg.general.suppress_ms = 0
    · right
      refine ⟨hw, ?_⟩
      have hhead : (t0 - t0 < e.cfg.general.suppress_ms * 8) = False := by
        simp [hw]
      simp only [insertA, List.filter_cons, hhead]
      simp only [decide_False, if_false]
      exact lookupA_filter_none _ _ _ (lookupA_eraseA_self e.last_alert (dk pid target))
    · left
      have hhead : t0 - t0 < e.cfg.general.suppress_ms * 8 := by
        have : 0 < e.cfg.general.suppress_ms := Nat.pos_of_ne_zero hw
        omega
      simp only [insertA, List.filter_cons, hhead]
      simp [lookupA]
  · left
    exact lookupA_insertA_self e.last_alert (dk pid target) t0

/-- Core of I1: after a non-suppressed call at `t0`, a same-key call at
`t1` is suppressed exactly when `t1` falls strictly inside the window. -/
theorem should_suppress_after_false (dk : Nat → String → Nat) (e : Engine)
    (t0 t1 pid : Nat) (target : String)
    (h : (e.should_suppress dk t0 pid target).1 = false) :
    (t1 - t0 < e.cfg.general.suppress_ms →
      ((e.should_suppress dk t0 pid target).2.should_suppress dk t1 pid target).1 = true) ∧
    (e.cfg.general.suppress_ms ≤ t1 - t0 →
      ((e.should_suppress dk t0 pid target).2.should_suppress dk t1 pid target).1 = false) := by
  obtain ⟨la, hla⟩ := should_suppress_shape dk e t0 pid target
  have hcfg : ((e.should_suppress dk t0 pid target).2).cfg = e.cfg := by rw [hla]
  rcases should_suppress_record dk e t0 pid target h with hrec | ⟨hw0, hrec⟩
  · constructor
    · intro hlt
      rw [should_suppress_fst, hrec, hcfg]
      simp [hlt]
    · intro hge
      rw [should_suppress_fst, hrec, hcfg]
      simp
      omega
  · constructor
    · intro hlt
      omega
    · intro _
      rw [should_suppress_fst, hrec]

/-- The suppression decision is a function of the `last_alert` map and the
configuration only. -/
theorem should_suppress_fst_congr (dk : Nat → String → Nat) (a b : Engine)
    (now pid : Nat) (target : String)
    (hla : a.last_alert = b.last_alert) (hcfg : a.cfg = b.cfg) :
    (a.should_suppress dk now pid target).1 = (b.should_suppress dk now pid target).1 := by
  rw [should_suppress_fst, should_suppress_fst, hla, hcfg]

/-! ### Alert-level lemmas -/

theorem alert_of_suppressed (dk : Nat → String → Nat) (e : Engine)
    (now ts_unix pid : Nat) (process target data_name : String) (event_id : Nat)
    (kind note : String)
    (h : (e.should_suppress dk now pid target).1 = true) :
    e.alert dk now ts_unix pid process target data_name event_id kind note = e := by
  unfold Engine.alert
  dsimp only
  rw [if_pos h, should_suppress_true_snd dk e now pid target h]

theorem alert_last_alert (dk : Nat → String → Nat) (e : Engine)
    (now ts_unix pid : Nat) (process target data_name : String) (event_id : Nat)
    (kind note : String) :
    (e.alert dk now ts_unix pid process target data_name event_id kind note).last_alert =
      ((e.should_suppress dk now pid target).2).last_alert := by
  unfold Engine.alert
  dsimp only
  split
  · rfl
  · obtain ⟨sk, hsk⟩ := send_alert_shape (e.should_suppress dk now pid target).2
      { ts_unix := ts_unix, pid := pid, process := process, target := target,
        data_name := data_name, event_id := event_id, kind := kind, note := note }
    rw [hsk]

theorem alert_cfg (dk : Nat → String → Nat) (e : Engine)
    (now ts_unix pid : Nat) (process target data_name : String) (event_id : Nat)
    (kind note : String) :
    (e.alert dk now ts_unix pid process target data_name event_id kind note).cfg = e.cfg := by
  obtain ⟨la, sk, h⟩ := alert_shape dk e now ts_unix pid process target data_name event_id kind note
  rw [h]

/-- A non-suppressed alert call reaches the channel send: it is enqueued
when the receiving side is open and silently dropped when it is closed. -/
theorem alert_sink_of_false (dk : Nat → String → Nat) (e : Engine)
    (now ts_unix pid : Nat) (process target data_name : String) (event_id : Nat)
    (kind note : String)
    (h : (e.should_suppress dk now pid target).1 = false) :
    (e.alert dk now ts_unix pid process target data_name event_id kind note).sink =
      (if e.sink_open then
        e.sink ++ [⟨ts_unix, pid, process, target, data_name, event_id, kind, note⟩]
       else e.sink) := by
  obtain ⟨la, hla⟩ := should_suppress_shape dk e now pid target
  unfold Engine.alert
  dsimp only
  rw [if_neg (by rw [h]; exact Bool.false_ne_true)]
  unfold Engine.send_alert
  rw [hla]
  dsimp only
  split <;> rfl

/-! ### C5: the per-(pid, target) suppression window -/

/-- **C5**: after a non-suppressed `Engine::alert` call at `t0` for a pid
and target, a second call with the same pid and target strictly less than
`suppress_ms` later is suppressed and sends nothing to the sink, and a
call at least `suppress_ms` later is not suppressed — so at most one alert
per `(pid, target)` reaches the sink within any `suppress_ms` window. -/
theorem claim_C5_suppression_window (dk : Nat → String → Nat) (e : Engine)
    (pid t0 t1 ts0 ts1 eid0 eid1 : Nat)
    (target p0 p1 d0 d1 k0 k1 n0 n1 : String)
    (h0 : (e.should_suppress dk t0 pid target).1 = false) :
    (t1 - t0 < e.cfg.general.suppress_ms →
      (((e.alert dk t0 ts0 pid p0 target d0 eid0 k0 n0).should_suppress
          dk t1 pid target).1 = true ∧
       ((e.alert dk t0 ts0 pid p0 target d0 eid0 k0 n0).alert
          dk t1 ts1 pid p1 target d1 eid1 k1 n1).sink
         = (e.alert dk t0 ts0 pid p0 target d0 eid0 k0 n0).sink)) ∧
    (e.cfg.general.suppress_ms ≤ t1 - t0 →
      ((e.alert dk t0 ts0 pid p0 target d0 eid0 k0 n0).should_suppress
          dk t1 pid target).1 = false) := by
  have hcongr :
      ((e.alert dk t0 ts0 pid p0 target d0 eid0 k0 n0).should_suppress dk t1 pid target).1 =
        ((e.should_suppress dk t0 pid target).2.should_suppress dk t1 pid target).1 := by
    obtain ⟨la, hla⟩ := should_suppress_shape dk e t0 pid target
    refine should_suppress_fst_congr dk _ _ t1 pid target ?_ ?_
    · rw [alert_last_alert]
    · rw [alert_cfg, hla]
  obtain ⟨hin, hout⟩ := should_suppress_after_false dk e t0 t1 pid target h0
  constructor
  · intro hlt
    have hsup : ((e.alert dk t0 ts0 pid p0 target d0 eid0 k0 n0).should_suppress
        dk t1 pid target).1 = true := by rw [hcongr]; exact hin hlt
    refine ⟨hsup, ?_⟩
    rw [alert_of_suppressed dk _ t1 ts1 pid p1 target d1 eid1 k1 n1 hsup]
  · intro hge
    rw [hcongr]
    exact hout hge

/-- Witness for C5 at the spec's default window: a second call 1499 ms
after a fresh alert is suppressed, one 1500 ms after is not. -/
theorem claim_C5_suppression_window_witness :
    (engChrome.should_suppress dkZero 1000 100 "t").1 = false ∧
    (2499 - 1000 < engChrome.cfg.general.suppress_ms ∧
      ((engChrome.alert dkZero 1000 0 100 "p" "t" "d" 12 "ka" "n").should_suppress
          dkZero 2499 100 "t").1 = true) ∧
    (engChrome.cfg.general.suppress_ms ≤ 2500 - 1000 ∧
      ((engChrome.alert dkZero 1000 0 100 "p" "t" "d" 12 "ka" "n").should_suppress
          dkZero 2500 100 "t").1 = false) :=
  ⟨by decide,
   ⟨by decide,
    ((claim_C5_suppression_window dkZero engChrome 100 1000 2499 0 0 12 12
      "t" "p" "p" "d" "d" "ka" "ka" "n" "n" (by decide)).1 (by decide)).1⟩,
   ⟨by decide,
    (claim_C5_suppression_window dkZero engChrome 100 1000 2500 0 0 12 12
      "t" "p" "p" "d" "d" "ka" "ka" "n" "n" (by decide)).2 (by decide)⟩⟩

/-! ### C10: suppression is independent of alert kind and metadata -/

/-- **C10**: the suppression decision of `Engine::alert` depends only on
the pid, the target and the prior suppression state — not on the kind,
note, event id or process image: two calls with equal `(pid, target)` from
the same state leave the same `last_alert` map and sink length, and a
non-suppressed alert of one kind suppresses (to a no-op) a later alert of
any other kind for the same `(pid, target)` within the window. -/
theorem claim_C10_kind_independent_suppression (dk : Nat → String → Nat) (e : Engine)
    (now tsa tsb t1 ts1 pid eida eidb eidc : Nat)
    (target pa pb pc da db dc ka kb kc na nb nc : String) :
    ((e.alert dk now tsa pid pa target da eida ka na).last_alert
        = (e.alert dk now tsb pid pb target db eidb kb nb).last_alert ∧
     (e.alert dk now tsa pid pa target da eida ka na).sink.length
        = (e.alert dk now tsb pid pb target db eidb kb nb).sink.length) ∧
    ((e.should_suppress dk now pid target).1 = false →
      t1 - now < e.cfg.general.suppress_ms →
      (e.alert dk now tsa pid pa target da eida ka na).alert
          dk t1 ts1 pid pc target dc eidc kc nc
        = e.alert dk now tsa pid pa target da eida ka na) := by
  constructor
  · constructor
    · rw [alert_last_alert, alert_last_alert]
    · rcases hdec : (e.should_suppress dk now pid target).1 with _ | _
      · rw [alert_sink_of_false dk e now tsa pid pa target da eida ka na hdec,
            alert_sink_of_false dk e now tsb pid pb target db eidb kb nb hdec]
        rcases e.sink_open with _ | _ <;> simp
      · rw [alert_of_suppressed dk e now tsa pid pa target da eida ka na hdec,
            alert_of_suppressed dk e now tsb pid pb target db eidb kb nb hdec]
  · intro h0 hlt
    have hcongr :
        ((e.alert dk now tsa pid pa target da eida ka na).should_suppress dk t1 pid target).1 =
          ((e.should_suppress dk now pid target).2.should_suppress dk t1 pid target).1 := by
      obtain ⟨la, hla⟩ := should_suppress_shape dk e now pid target
      refine should_suppress_fst_congr dk _ _ t1 pid target ?_ ?_
      · rw [alert_last_alert]
      · rw [alert_cfg, hla]
    have hsup : ((e.alert dk now tsa pid pa target da eida ka na).should_suppress
        dk t1 pid target).1 = true := by
      rw [hcongr]
      exact (should_suppress_after_false dk e now t1 pid target h0).1 hlt
    exact alert_of_suppressed dk _ t1 ts1 pid pc target dc eidc kc nc hsup

/-- Witness for C10: a `protected_resource_access` alert suppresses a
`suspicious_whitelisted_handle_access` alert for the same `(pid, target)`
10 ms later, leaving the engine unchanged. -/
theorem claim_C10_kind_independent_suppression_witness :
    (engChrome.should_suppress dkZero 50 100 "t").1 = false ∧
    60 - 50 < engChrome.cfg.general.suppress_ms ∧
    (engChrome.alert dkZero 50 0 100 "p" "t" "d" 12 "protected_resource_access" "n").alert
        dkZero 60 0 100 "q" "t" "d" 13 "suspicious_whitelisted_handle_access" "m"
      = engChrome.alert dkZero 50 0 100 "p" "t" "d" 12 "protected_resource_access" "n" :=
  ⟨by decide, by decide,
   (claim_C10_kind_independent_suppression dkZero engChrome 50 0 0 60 0 100 12 12 13
      "t" "p" "p" "q" "d" "d" "d" "protected_resource_access" "protected_resource_access"
      "suspicious_whitelisted_handle_access" "n" "n" "m").2 (by decide) (by decide)⟩

/-! ### File-key cache component lemmas -/

theorem on_process_start_filekey (verify : String → TrustResult) (e : Engine)
    (now pid : Nat) (image : String) (c : Option String) :
    (e.on_process_start verify now pid image c).filekey_cache = e.filekey_cache := by
  obtain ⟨pc, h⟩ := on_process_start_shape verify e now pid image c
  rw [h]

theorem resolve_process_image_filekey (os_image : Nat → Option String) (e : Engine)
    (now pid : Nat) :
    ((e.resolve_process_image os_image now pid).2).filekey_cache = e.filekey_cache := by
  obtain ⟨pc, h⟩ := resolve_process_image_shape os_image e now pid
  rw [h]

theorem learn_whitelisted_file_object_filekey (e : Engine) (fo pid : Nat) :
    (e.learn_whitelisted_file_object fo pid).filekey_cache = e.filekey_cache := by
  obtain ⟨wl, h⟩ := learn_whitelisted_file_object_shape e fo pid
  rw [h]

theorem alert_filekey (dk : Nat → String → Nat) (e : Engine) (now ts_unix pid : Nat)
    (process target data_name : String) (event_id : Nat) (kind note : String) :
    (e.alert dk now ts_unix pid process target data_name event_id kind note).filekey_cache
      = e.filekey_cache := by
  obtain ⟨la, sk, h⟩ := alert_shape dk e now ts_unix pid process target data_name event_id kind note
  rw [h]

/-- What `file_cb` can do to the file-key cache: leave it alone, bind the
event's file key (only in the `event_id = 0` branch), or clear it (only in
the close branches). -/
theorem file_cb_filekey_cases (dk : Nat → String → Nat) (os_image : Nat → Option String)
    (e : Engine) (now ts_unix : Nat) (ev : FileEvent) :
    (e.file_cb dk os_image now ts_unix ev).filekey_cache = e.filekey_cache ∨
    (ev.event_id = 0 ∧ ev.file_key ≠ 0 ∧ ev.file_name_prop ≠ none ∧
      ∃ n, (e.file_cb dk os_image now ts_unix ev).filekey_cache
        = insertA e.filekey_cache ev.file_key n) ∨
    (e.file_cb dk os_image now ts_unix ev).filekey_cache = eraseA e.filekey_cache ev.file_key := by
  unfold Engine.file_cb
  dsimp only
  split
  · left; rfl
  · split
    · split
      · left; rfl
      · split
        · left; rfl
        · rename_i h0 _ n hn
          right; left
          refine ⟨by assumption, by assumption, by rw [hn]; exact fun h => Option.noConfusion h, n, rfl⟩
    · split
      · split
        · right; right; rfl
        · left; rfl
      · split
        · left; rfl
        · split
          · left; rfl
          · split
            · split
              · exact Or.inl (learn_whitelisted_file_object_filekey _ _ _ |>.trans
                  (resolve_process_image_filekey os_image e now ev.pid))
              · exact Or.inl (resolve_process_image_filekey os_image e now ev.pid)
            · split
              · exact Or.inl ((alert_filekey dk _ now ts_unix ev.pid _ _ _ ev.event_id _ _).trans
                  (resolve_process_image_filekey os_image e now ev.pid))
              · exact Or.inl ((alert_filekey dk _ now ts_unix ev.pid _ _ _ ev.event_id _ _).trans
                  (resolve_process_image_filekey os_image e now ev.pid))

/-- One step that does not bind `k` cannot make `resolve_file_key k`
defined again. -/
theorem step_preserves_resolve_none (dk : Nat → String → Nat)
    (verify : String → TrustResult) (os_image : Nat → Option String)
    (e : Engine) (k : Nat) (op : EngOp)
    (hop : binds_key k op = false) (h : e.resolve_file_key k = none) :
    (e.step dk verify os_image op).resolve_file_key k = none := by
  unfold Engine.resolve_file_key at h ⊢
  cases op with
  | procStart now pid image cmdline =>
    rw [Engine.step, on_process_start_filekey]
    exact h
  | nameBind k' n =>
    have hk : k' ≠ k := by simpa [binds_key] using hop
    rw [Engine.step]
    unfold Engine.on_file_name_mapping
    dsimp only
    rw [lookupA_insertA_ne e.filekey_cache k' k n hk]
    exact h
  | keyClear k' =>
    rw [Engine.step]
    unfold Engine.clear_file_key eraseA
    dsimp only
    exact lookupA_filter_none _ _ _ h
  | wlLearn fo pid =>
    rw [Engine.step, learn_whitelisted_file_object_filekey]
    exact h
  | alertCall now ts_unix pid process target data_name event_id kind note =>
    rw [Engine.step, alert_filekey]
    exact h
  | fileAccess now ts_unix ev =>
    rw [Engine.step]
    rcases file_cb_filekey_cases dk os_image e now ts_unix ev with hsame | ⟨h0, hk0, hn, n, hins⟩ | hclr
    · rw [hsame]; exact h
    · have : ev.file_key ≠ k := by
        intro hkk
        have hk' : ¬ k = 0 := hkk ▸ hk0
        have : binds_key k (EngOp.fileAccess now ts_unix ev) = true := by
          cases hnp : ev.file_name_prop with
          | none => exact absurd hnp hn
          | some v => simp [binds_key, h0, hkk, hk', hnp]
        rw [this] at hop
        exact Bool.noConfusion hop
      rw [hins, lookupA_insertA_ne e.filekey_cache ev.file_key k n this]
      exact h
    · rw [hclr]
      exact lookupA_filter_none _ _ _ h

/-- Running any sequence of operations none of which binds `k` preserves
an unresolved file key. -/
theorem run_preserves_resolve_none (dk : Nat → String → Nat)
    (verify : String → TrustResult) (os_image : Nat → Option String)
    (e : Engine) (k : Nat) (ops : List EngOp)
    (hops : ∀ op ∈ ops, binds_key k op = false) (h : e.resolve_file_key k = none) :
    (e.run dk verify os_image ops).resolve_file_key k = none := by
  induction ops generalizing e with
  | nil => exact h
  | cons op rest ih =>
    have hstep := step_preserves_resolve_none dk verify os_image e k op
      (hops op (List.mem_cons_self op rest)) h
    exact ih (e.step dk verify os_image op)
      (fun o ho => hops o (List.mem_cons_of_mem op ho)) hstep

/-! ### C9: file-key resolver lifecycle -/

/-- **C9**: after `clear_file_key k`, `resolve_file_key k` returns none;
it stays none across any sequence of engine operations that contains no
`on_file_name_mapping(k, _)` call; and a new bind `on_file_name_mapping
(k, n)` makes `resolve_file_key k` return `n` again. -/
theorem claim_C9_file_key_lifecycle (dk : Nat → String → Nat)
    (verify : String → TrustResult) (os_image : Nat → Option String)
    (e : Engine) (k : Nat) (n : String) (ops : List EngOp)
    (hops : ∀ op ∈ ops, binds_key k op = false) :
    (e.clear_file_key k).resolve_file_key k = none ∧
    ((e.clear_file_key k).run dk verify os_image ops).resolve_file_key k = none ∧
    (e.on_file_name_mapping k n).resolve_file_key k = some n := by
  have hclr : (e.clear_file_key k).resolve_file_key k = none :=
    lookupA_eraseA_self e.filekey_cache k
  refine ⟨hclr, run_preserves_resolve_none dk verify os_image _ k ops hops hclr, ?_⟩
  exact lookupA_insertA_self e.filekey_cache k n

/-- Witness for C9: clear key 16, run a mixed batch of operations that
never rebinds it, observe it stays unresolved, then rebind it. -/
theorem claim_C9_file_key_lifecycle_witness :
    (∀ op ∈ [EngOp.procStart 1 9 "c:\\x.exe" none, EngOp.keyClear 3,
        EngOp.nameBind 17 "y",
        EngOp.fileAccess 2 2 ⟨12, 100, none, some 171, some "C:\\a\\Login Data"⟩],
      binds_key 16 op = false) ∧
    ((engChrome.clear_file_key 16).resolve_file_key 16 = none ∧
     ((engChrome.clear_file_key 16).run dkZero verifyUnsigned osImageNone
        [EngOp.procStart 1 9 "c:\\x.exe" none, EngOp.keyClear 3,
         EngOp.nameBind 17 "y",
         EngOp.fileAccess 2 2 ⟨12, 100, none, some 171, some "C:\\a\\Login Data"⟩]).resolve_file_key 16
       = none ∧
     (engChrome.on_file_name_mapping 16 "n").resolve_file_key 16 = some "n") :=
  ⟨by decide,
   claim_C9_file_key_lifecycle dkZero verifyUnsigned osImageNone engChrome 16 "n"
     [EngOp.procStart 1 9 "c:\\x.exe" none, EngOp.keyClear 3,
      EngOp.nameBind 17 "y",
      EngOp.fileAccess 2 2 ⟨12, 100, none, some 171, some "C:\\a\\Login Data"⟩]
     (by decide)⟩

/-! ### C7: trust computation -/

/-- **C7**: trust for a path is: untrusted with no subject when the oracle
reports not signed; trusted when signed and the signer-subject allowlist
is empty; otherwise trusted exactly when some configured needle occurs
case-insensitively inside the reported signer subject (the configured
needles are already lower-cased by `Config::load`). -/
theorem claim_C7_trust_computation (verify : String → TrustResult) (e : Engine)
    (path : String)
    (hlow : ∀ nd ∈ e.cfg.allowlist.signer_subject_allow, lowerStr nd = nd) :
    ((verify path).is_signed = false →
      e.trust_for_path verify path = ⟨false, false, none⟩) ∧
    ((verify path).is_signed = true →
      e.cfg.allowlist.signer_subject_allow = [] →
      e.trust_for_path verify path = ⟨true, true, (verify path).signer_subject⟩) ∧
    ((verify path).is_signed = true →
      e.cfg.allowlist.signer_subject_allow ≠ [] →
      (e.trust_for_path verify path).is_signed = true ∧
      (e.trust_for_path verify path).signer_subject = (verify path).signer_subject ∧
      ((e.trust_for_path verify path).is_trusted = true ↔
        ∃ nd ∈ e.cfg.allowlist.signer_subject_allow,
          strContainsSub (lowerStr ((verify path).signer_subject.getD ""))
            (lowerStr nd) = true)) := by
  unfold Engine.trust_for_path
  dsimp only
  cases hs : (verify path).is_signed with
  | false =>
    exact ⟨fun _ => by simp, fun h => Bool.noConfusion h, fun h => Bool.noConfusion h⟩
  | true =>
    refine ⟨fun h => Bool.noConfusion h, fun _ hnil => ?_, fun _ hnonnil => ?_⟩
    · simp [hnil]
    · rw [if_neg (by simp), if_pos hnonnil]
      refine ⟨rfl, rfl, ?_⟩
      dsimp only
      rw [List.any_eq_true]
      constructor
      · rintro ⟨nd, hmem, hc⟩
        exact ⟨nd, hmem, by rw [hlow nd hmem]; simpa using hc⟩
      · rintro ⟨nd, hmem, hc⟩
        exact ⟨nd, by simpa using ⟨hmem, by rw [hlow nd hmem] at hc; exact hc⟩⟩

/-- Witness for C7 on the allowlist branch: subject
`Microsoft Windows Publisher` against needle `microsoft`. -/
theorem claim_C7_trust_computation_witness :
    (∀ nd ∈ engMicrosoft.cfg.allowlist.signer_subject_allow, lowerStr nd = nd) ∧
    (verifyMicrosoft "c:\\signed.exe").is_signed = true ∧
    engMicrosoft.cfg.allowlist.signer_subject_allow ≠ [] ∧
    ((engMicrosoft.trust_for_path verifyMicrosoft "c:\\signed.exe").is_signed = true ∧
     (engMicrosoft.trust_for_path verifyMicrosoft "c:\\signed.exe").signer_subject
       = (verifyMicrosoft "c:\\signed.exe").signer_subject ∧
     ((engMicrosoft.trust_for_path verifyMicrosoft "c:\\signed.exe").is_trusted = true ↔
       ∃ nd ∈ engMicrosoft.cfg.allowlist.signer_subject_allow,
         strContainsSub
           (lowerStr ((verifyMicrosoft "c:\\signed.exe").signer_subject.getD ""))
           (lowerStr nd) = true)) :=
  ⟨by decide, by decide, by decide,
   (claim_C7_trust_computation verifyMicrosoft engMicrosoft "c:\\signed.exe"
      (by decide)).2.2 (by decide) (by decide)⟩

/-! ### Lowercasing and rule-matching lemmas -/

theorem char_toNat_ofNat (n : Nat) (h : n.isValidChar) : (Char.ofNat n).toNat = n := by
  unfold Char.ofNat
  rw [dif_pos h]
  rfl

theorem lowerChar_idem (c : Char) : lowerChar (lowerChar c) = lowerChar c := by
  unfold lowerChar
  by_cases h : 65 ≤ c.toNat ∧ c.toNat ≤ 90
  · rw [if_pos h]
    have hv : (c.toNat + 32).isValidChar := by
      left
      have := h.2
      omega
    rw [if_neg]
    rw [char_toNat_ofNat _ hv]
    omega
  · rw [if_neg h, if_neg h]

theorem lowerStr_idem (s : String) : lowerStr (lowerStr s) = lowerStr s := by
  unfold lowerStr
  cases s with
  | mk data =>
    dsimp only
    rw [List.map_map]
    apply congrArg
    apply List.map_congr_left
    intro c _
    exact lowerChar_idem c

theorem findRule_eq_none_iff (p : String) (rs : List ProtectedRule) :
    findRule p rs = none ↔ ∀ r ∈ rs, strContainsSub p r.substring = false := by
  induction rs with
  | nil => simp [findRule]
  | cons r tl ih =>
    by_cases h : strContainsSub p r.substring = true
    · simp [findRule, h]
    · have hf : strContainsSub p r.substring = false := by simpa using h
      simp [findRule, hf, ih]

theorem findRule_eq_some_iff (p : String) (rs : List ProtectedRule) (nm sub : String) :
    findRule p rs = some (nm, sub) ↔
      ∃ i : Fin rs.length,
        rs.get i = ⟨sub, nm⟩ ∧ strContainsSub p sub = true ∧
        ∀ j : Fin rs.length, j.val < i.val →
          strContainsSub p (rs.get j).substring = false := by
  induction rs with
  | nil =>
    constructor
    · intro h
      exact Option.noConfusion h
    · rintro ⟨i, -⟩
      exact i.elim0
  | cons r tl ih =>
    by_cases hc : strContainsSub p r.substring = true
    · constructor
      · intro h
        have hpair : r.name = nm ∧ r.substring = sub := by
          have : some (r.name, r.substring) = some (nm, sub) := by
            simpa [findRule, hc] using h
          have := Option.some.inj this
          exact ⟨congrArg Prod.fst this, congrArg Prod.snd this⟩
        refine ⟨⟨0, by simp⟩, ?_, ?_, ?_⟩
        · show r = ⟨sub, nm⟩
          cases r
          simp at hpair ⊢
          exact ⟨hpair.2.symm ▸ rfl, hpair.1.symm ▸ rfl⟩
        · rw [← hpair.2]
          exact hc
        · intro j hj
          exact absurd hj (Nat.not_lt_zero _)
      · rintro ⟨⟨iv, hi⟩, hget, hcont, hmin⟩
        cases iv with
        | zero =>
          have hr : r = ⟨sub, nm⟩ := by simpa using hget
          subst hr
          simp only [findRule]
          rw [if_pos hc]
        | succ iv' =>
          have h0 : strContainsSub p ((r :: tl).get ⟨0, by simp⟩).substring = false :=
            hmin ⟨0, by simp⟩ (Nat.succ_pos iv')
          simp at h0
          rw [h0] at hc
          exact Bool.noConfusion hc
    · have hcf : strContainsSub p r.substring = false := by simpa using hc
      constructor
      · intro h
        have h' : findRule p tl = some (nm, sub) := by simpa [findRule, hcf] using h
        obtain ⟨⟨iv, hi⟩, hget, hcont, hmin⟩ := ih.1 h'
        refine ⟨⟨iv + 1, by simpa using Nat.succ_lt_succ hi⟩, by simpa using hget, hcont, ?_⟩
        rintro ⟨jv, hj⟩ hlt
        cases jv with
        | zero => simpa using hcf
        | succ jv' =>
          have hlt' : jv' + 1 < iv + 1 := hlt
          have : jv' < tl.length := by simpa using hj
          simpa using hmin ⟨jv', this⟩ (show jv' < iv by omega)
      · rintro ⟨⟨iv, hi⟩, hget, hcont, hmin⟩
        cases iv with
        | zero =>
          have hr : r = ⟨sub, nm⟩ := by simpa using hget
          rw [hr] at hcf
          simp at hcf
          rw [hcf] at hcont
          exact Bool.noConfusion hcont
        | succ iv' =>
          have hi' : iv' < tl.length := by simpa using hi
          have h' : findRule p tl = some (nm, sub) := by
            refine ih.2 ⟨⟨iv', hi'⟩, by simpa using hget, hcont, ?_⟩
            rintro ⟨jv, hj⟩ hlt
            have hlt' : jv < iv' := hlt
            simpa using hmin ⟨jv + 1, by simpa using Nat.succ_lt_succ hj⟩
              (show jv + 1 < iv' + 1 by omega)
          simp [findRule, hcf, h']

/-- `Config::load` leaves every protected-rule substring lower-cased. -/
theorem load_fold_substring_lower (c : Config) :
    ∀ r ∈ (Config.load_fold c).watch.protected_rules, lowerStr r.substring = r.substring := by
  unfold Config.load_fold
  dsimp only
  split
  · intro r hr
    simp at hr
    obtain ⟨s0, -, rfl⟩ := hr
    exact lowerStr_idem s0
  · intro r hr
    simp at hr
    obtain ⟨r0, -, rfl⟩ := hr
    exact lowerStr_idem r0.substring

/-! ### C8: order-stable first-hit rule matching -/

/-- **C8**: `match_protected_rule` returns the `(display_name, substring)`
of the first rule in configured order whose (lower-cased) substring occurs
in the lower-cased path, returns none exactly when no rule substring
occurs, and is insensitive to the case of the path; being a function of
the path and the configured rules alone, it is deterministic and
order-stable. -/
theorem claim_C8_rule_matching_first_hit (e : Engine) (path : String) :
    (e.match_protected_rule path = none ↔
      ∀ r ∈ e.cfg.watch.protected_rules,
        strContainsSub (lowerStr path) r.substring = false) ∧
    (∀ nm sub, e.match_protected_rule path = some (nm, sub) ↔
      ∃ i : Fin e.cfg.watch.protected_rules.length,
        e.cfg.watch.protected_rules.get i = ⟨sub, nm⟩ ∧
        strContainsSub (lowerStr path) sub = true ∧
        ∀ j : Fin e.cfg.watch.protected_rules.length, j.val < i.val →
          strContainsSub (lowerStr path) (e.cfg.watch.protected_rules.get j).substring
            = false) ∧
    e.match_protected_rule (lowerStr path) = e.match_protected_rule path := by
  refine ⟨findRule_eq_none_iff _ _, fun nm sub => findRule_eq_some_iff _ _ nm sub, ?_⟩
  unfold Engine.match_protected_rule
  rw [lowerStr_idem]

/-! ### Trusted-path lemmas for the decision tree -/

/-- Image resolution does not refresh the cache while the image TTL holds. -/
theorem resolve_process_image_fresh (os_image : Nat → Option String) (e : Engine)
    (now pid : Nat) (meta : ProcMeta)
    (hmeta : lookupA e.proc_cache pid = some meta)
    (httl : now - meta.ts ≤ 10000) :
    (e.resolve_process_image os_image now pid).2 = e := by
  unfold Engine.resolve_process_image
  dsimp only
  split
  · rfl
  · rw [hmeta]
    dsimp only
    rw [if_pos httl]

/-- A pid with a live trusted `ProcMeta` is trusted regardless of the
reported process path. -/
theorem is_pid_trusted_of_meta (e : Engine) (now pid : Nat) (proc_path : String)
    (meta : ProcMeta)
    (hmeta : lookupA e.proc_cache pid = some meta)
    (htr : meta.is_trusted_signed = true)
    (httl : now - meta.ts ≤ 60000) :
    e.is_pid_trusted now pid proc_path = true := by
  unfold Engine.is_pid_trusted
  rw [hmeta]
  dsimp only
  rw [if_pos (by rw [htr]; simpa using httl)]

/-- Learning a whitelisted file object records the pid (outside the
`pid ∈ {0, 4}` and `file_object = 0` guards). -/
theorem learn_whitelisted_file_object_mem (e : Engine) (fo pid : Nat)
    (hfo : fo ≠ 0) (hp0 : pid ≠ 0) (hp4 : pid ≠ 4) :
    pid ∈ (e.learn_whitelisted_file_object fo pid).wl_set fo := by
  unfold Engine.learn_whitelisted_file_object Engine.wl_set
  rw [if_neg (by simp [hfo, hp0, hp4])]
  dsimp only
  rw [lookupA_insertA_self]
  unfold insertPid
  split
  · assumption
  · exact List.mem_cons_self pid _

/-- The trusted branch of the decision tree: when the pid is trusted at
step 4, `file_cb` emits nothing, and learns the file object whenever it is
non-zero. -/
theorem file_cb_trusted_branch (dk : Nat → String → Nat) (os_image : Nat → Option String)
    (e : Engine) (now ts_unix : Nat) (ev : FileEvent) (t : String)
    (hev : ev.event_id = 12)
    (htarget : e.target_of ev = some t)
    (hrule : e.match_protected_rule t ≠ none)
    (htrusted : ((e.resolve_process_image os_image now ev.pid).2).is_pid_trusted now ev.pid
        (e.resolve_process_image os_image now ev.pid).1 = true) :
    e.file_cb dk os_image now ts_unix ev =
      (if ev.file_object ≠ 0 then
        ((e.resolve_process_image os_image now ev.pid).2).learn_whitelisted_file_object
          ev.file_object ev.pid
       else (e.resolve_process_image os_image now ev.pid).2) := by
  unfold Engine.file_cb
  dsimp only
  rw [if_neg (by simp [hev])]
  rw [if_neg (by simp [hev])]
  rw [if_neg (by simp [hev])]
  rw [htarget]
  dsimp only
  rcases hm : e.match_protected_rule t with _ | pr
  · exact absurd hm hrule
  · rcases pr with ⟨data_name, sub⟩
    dsimp only
    rw [if_pos htrusted]

/-! ### C1: trusted ProcMeta within the 60 s trust TTL -/

/-- **C1 is false on the code**: pid 100 has a ProcMeta with
`is_trusted=true` observed 30 s before the event — within the 60 s trust
TTL — and the target matches a protected rule, yet `is_pid_trusted` fails
at step 4 and a `protected_resource_access` alert is emitted, because
`resolve_process_image` (step 3) overwrites the ProcMeta with
`is_trusted_signed=false` once the meta is older than the 10 s image TTL. -/
theorem claim_C1_counterexample :
    ((lookupA engTrustedMeta.proc_cache 100).map ProcMeta.is_trusted_signed = some true ∧
     (lookupA engTrustedMeta.proc_cache 100).map ProcMeta.ts = some 0 ∧
     30000 - 0 ≤ 60000 ∧
     engTrustedMeta.target_of evLoginData = some "C:\\Users\\a\\Login Data" ∧
     engTrustedMeta.match_protected_rule "C:\\Users\\a\\Login Data" ≠ none) ∧
    ((engTrustedMeta.resolve_process_image osImageSigned 30000 100).2).is_pid_trusted
        30000 100 (engTrustedMeta.resolve_process_image osImageSigned 30000 100).1 = false ∧
    (engTrustedMeta.file_cb dkZero osImageSigned 30000 999 evLoginData).sink.map Alert.kind
      = ["protected_resource_access"] := by
  decide

/-- **C1 (amended)**: restricted to a ProcMeta observed at most 10 seconds
before the event (the image TTL, so that step 3 does not overwrite it):
for every file-access event that reaches the decision tree from a pid
whose ProcMeta has `is_trusted=true` and was observed at most 10 s before
the event, `is_pid_trusted` holds at step 4 and no alert is emitted. -/
theorem claim_C1_amended_trusted_meta_within_image_ttl (dk : Nat → String → Nat)
    (os_image : Nat → Option String) (e : Engine) (now ts_unix : Nat)
    (ev : FileEvent) (meta : ProcMeta) (t : String)
    (hev : ev.event_id = 12)
    (hmeta : lookupA e.proc_cache ev.pid = some meta)
    (htr : meta.is_trusted_signed = true)
    (httl : now - meta.ts ≤ 10000)
    (htarget : e.target_of ev = some t)
    (hrule : e.match_protected_rule t ≠ none) :
    ((e.resolve_process_image os_image now ev.pid).2).is_pid_trusted now ev.pid
        (e.resolve_process_image os_image now ev.pid).1 = true ∧
    (e.file_cb dk os_image now ts_unix ev).sink = e.sink := by
  have hres : (e.resolve_process_image os_image now ev.pid).2 = e :=
    resolve_process_image_fresh os_image e now ev.pid meta hmeta httl
  have htrusted : ((e.resolve_process_image os_image now ev.pid).2).is_pid_trusted now ev.pid
      (e.resolve_process_image os_image now ev.pid).1 = true := by
    rw [hres]
    exact is_pid_trusted_of_meta e now ev.pid _ meta hmeta htr (by omega)
  refine ⟨htrusted, ?_⟩
  rw [file_cb_trusted_branch dk os_image e now ts_unix ev t hev htarget hrule htrusted]
  split
  · obtain ⟨wl, hwl⟩ := learn_whitelisted_file_object_shape
      (e.resolve_process_image os_image now ev.pid).2 ev.file_object ev.pid
    rw [hwl, hres]
  · rw [hres]

/-- Witness for the amended C1: the trusted meta is 5 s old, the access is
silent and the pid reads as trusted at step 4. -/
theorem claim_C1_amended_trusted_meta_within_image_ttl_witness :
    (evLoginData.event_id = 12 ∧
     lookupA engTrustedMeta.proc_cache evLoginData.pid
       = some ⟨"c:\\signed.exe", 0, true, some "Microsoft Windows Publisher"⟩ ∧
     (⟨"c:\\signed.exe", 0, true, some "Microsoft Windows Publisher"⟩ :
       ProcMeta).is_trusted_signed = true ∧
     5000 - (⟨"c:\\signed.exe", 0, true, some "Microsoft Windows Publisher"⟩ :
       ProcMeta).ts ≤ 10000 ∧
     engTrustedMeta.target_of evLoginData = some "C:\\Users\\a\\Login Data" ∧
     engTrustedMeta.match_protected_rule "C:\\Users\\a\\Login Data" ≠ none) ∧
    (((engTrustedMeta.resolve_process_image osImageSigned 5000 evLoginData.pid).2).is_pid_trusted
        5000 evLoginData.pid
        (engTrustedMeta.resolve_process_image osImageSigned 5000 evLoginData.pid).1 = true ∧
     (engTrustedMeta.file_cb dkZero osImageSigned 5000 999 evLoginData).sink
       = engTrustedMeta.sink) :=
  ⟨⟨by decide, by decide, by decide, by decide, by decide, by decide⟩,
   claim_C1_amended_trusted_meta_within_image_ttl dkZero osImageSigned engTrustedMeta
     5000 999 evLoginData ⟨"c:\\signed.exe", 0, true, some "Microsoft Windows Publisher"⟩
     "C:\\Users\\a\\Login Data" (by decide) (by decide) (by decide) (by decide)
     (by decide) (by decide)⟩

/-! ### C3: trusted accesses feed the Whitelisted File-Object Registry -/

/-- **C3 is false on the code** for the SYSTEM pids:
`learn_whitelisted_file_object` early-returns for pid 0 and pid 4, so a
trusted access by pid 4 (trusted via the legacy `process_name_allow`
suffix `"system"` against the hard-wired image `SYSTEM`) with
file_object 7 adds nothing to the registry, although no alert is
emitted. -/
theorem claim_C3_counterexample :
    (evSystemFo.event_id = 12 ∧
     evSystemFo.file_object ≠ 0 ∧
     engSystemAllow.target_of evSystemFo = some "C:\\Users\\a\\Login Data" ∧
     engSystemAllow.match_protected_rule "C:\\Users\\a\\Login Data" ≠ none ∧
     ((engSystemAllow.resolve_process_image osImageSigned 1000 4).2).is_pid_trusted 1000 4
       (engSystemAllow.resolve_process_image osImageSigned 1000 4).1 = true) ∧
    ¬ 4 ∈ (engSystemAllow.file_cb dkZero osImageSigned 1000 999 evSystemFo).wl_set
        evSystemFo.file_object ∧
    (engSystemAllow.file_cb dkZero osImageSigned 1000 999 evSystemFo).whitelisted_file_objects
      = [] := by
  decide

/-- **C3 (amended)**: additionally requiring `pid ∉ {0, 4}` (the SYSTEM
pids, which `learn_whitelisted_file_object` refuses to learn): for every
file-access event on a protected target with `file_object ≠ 0` made by a
trusted pid other than 0 and 4, the pair is added to the Whitelisted
File-Object Registry and no alert is emitted. -/
theorem claim_C3_amended_trusted_access_learns (dk : Nat → String → Nat)
    (os_image : Nat → Option String) (e : Engine) (now ts_unix : Nat)
    (ev : FileEvent) (t : String)
    (hev : ev.event_id = 12)
    (htarget : e.target_of ev = some t)
    (hrule : e.match_protected_rule t ≠ none)
    (hfo : ev.file_object ≠ 0)
    (hp0 : ev.pid ≠ 0) (hp4 : ev.pid ≠ 4)
    (htrusted : ((e.resolve_process_image os_image now ev.pid).2).is_pid_trusted now ev.pid
        (e.resolve_process_image os_image now ev.pid).1 = true) :
    ev.pid ∈ (e.file_cb dk os_image now ts_unix ev).wl_set ev.file_object ∧
    (e.file_cb dk os_image now ts_unix ev).sink = e.sink := by
  rw [file_cb_trusted_branch dk os_image e now ts_unix ev t hev htarget hrule htrusted,
      if_pos hfo]
  obtain ⟨pc, hpc⟩ := resolve_process_image_shape os_image e now ev.pid
  constructor
  · exact learn_whitelisted_file_object_mem _ ev.file_object ev.pid hfo hp0 hp4
  · obtain ⟨wl, hwl⟩ := learn_whitelisted_file_object_shape
      (e.resolve_process_image os_image now ev.pid).2 ev.file_object ev.pid
    rw [hwl, hpc]

/-- Witness for the amended C3: trusted pid 200 (live trusted meta) opens
the protected target with file object 171; the pair is learned and the
access is silent. -/
theorem claim_C3_amended_trusted_access_learns_witness :
    ((⟨12, 200, none, some 171, some "C:\\a\\Login Data"⟩ : FileEvent).event_id = 12 ∧
     ({ engChrome with proc_cache := [(200, ⟨"c:\\good.exe", 0, true, none⟩)] } :
        Engine).target_of ⟨12, 200, none, some 171, some "C:\\a\\Login Data"⟩
       = some "C:\\a\\Login Data" ∧
     ({ engChrome with proc_cache := [(200, ⟨"c:\\good.exe", 0, true, none⟩)] } :
        Engine).match_protected_rule "C:\\a\\Login Data" ≠ none ∧
     (⟨12, 200, none, some 171, some "C:\\a\\Login Data"⟩ : FileEvent).file_object ≠ 0 ∧
     (⟨12, 200, none, some 171, some "C:\\a\\Login Data"⟩ : FileEvent).pid ≠ 0 ∧
     (⟨12, 200, none, some 171, some "C:\\a\\Login Data"⟩ : FileEvent).pid ≠ 4 ∧
     ((({ engChrome with proc_cache := [(200, ⟨"c:\\good.exe", 0, true, none⟩)] } :
        Engine).resolve_process_image osImageNone 5000 200).2).is_pid_trusted 5000 200
       ((({ engChrome with proc_cache := [(200, ⟨"c:\\good.exe", 0, true, none⟩)] } :
        Engine).resolve_process_image osImageNone 5000 200).1) = true) ∧
    (200 ∈ (({ engChrome with proc_cache := [(200, ⟨"c:\\good.exe", 0, true, none⟩)] } :
        Engine).file_cb dkZero osImageNone 5000 999
        ⟨12, 200, none, some 171, some "C:\\a\\Login Data"⟩).wl_set 171 ∧
     (({ engChrome with proc_cache := [(200, ⟨"c:\\good.exe", 0, true, none⟩)] } :
        Engine).file_cb dkZero osImageNone 5000 999
        ⟨12, 200, none, some 171, some "C:\\a\\Login Data"⟩).sink
       = ({ engChrome with proc_cache := [(200, ⟨"c:\\good.exe", 0, true, none⟩)] } :
        Engine).sink) :=
  ⟨⟨by decide, by decide, by decide, by decide, by decide, by decide, by decide⟩,
   claim_C3_amended_trusted_access_learns dkZero osImageNone
     { engChrome with proc_cache := [(200, ⟨"c:\\good.exe", 0, true, none⟩)] }
     5000 999 ⟨12, 200, none, some 171, some "C:\\a\\Login Data"⟩ "C:\\a\\Login Data"
     (by decide) (by decide) (by decide) (by decide) (by decide) (by decide) (by decide)⟩

/-! ### C2: alert delivery and sink-closure behaviour -/

/-- **C2 is false on the code**: with the sink's receiving side closed, a
non-suppressed `Engine::alert` call delivers nothing (the alert is
dropped), and the engine does not treat the failure as terminal — it
still records the suppression timestamp and keeps accepting and
processing subsequent operations. -/
theorem claim_C2_counterexample :
    (engClosed.should_suppress dkZero 100 100 "t").1 = false ∧
    (engClosed.alert dkZero 100 999 100 "p" "t" "d" 12
        "protected_resource_access" "n").sink = [] ∧
    ((engClosed.alert dkZero 100 999 100 "p" "t" "d" 12
        "protected_resource_access" "n").on_file_name_mapping 5 "x").resolve_file_key 5
      = some "x" ∧
    ((engClosed.alert dkZero 100 999 100 "p" "t" "d" 12
        "protected_resource_access" "n").should_suppress dkZero 5000 100 "t").1 = false := by
  decide

/-- **C2 (amended)**: every non-suppressed `Engine::alert` call performs
the channel send; when the receiving side is open the alert is enqueued
(the channel is unbounded, so nothing blocks and no non-suppressed alert
is dropped), and when it is closed the send error is discarded — the
alert is lost and the engine continues operating, its suppression state
updated as usual. -/
theorem claim_C2_amended_alert_delivery (dk : Nat → String → Nat) (e : Engine)
    (now ts_unix pid : Nat) (process target data_name : String) (event_id : Nat)
    (kind note : String)
    (h : (e.should_suppress dk now pid target).1 = false) :
    (e.sink_open = true →
      (e.alert dk now ts_unix pid process target data_name event_id kind note).sink
        = e.sink ++ [⟨ts_unix, pid, process, target, data_name, event_id, kind, note⟩]) ∧
    (e.sink_open = false →
      (e.alert dk now ts_unix pid process target data_name event_id kind note).sink
        = e.sink) ∧
    (e.alert dk now ts_unix pid process target data_name event_id kind note).last_alert
      = ((e.should_suppress dk now pid target).2).last_alert := by
  refine ⟨fun hopen => ?_, fun hclosed => ?_, alert_last_alert dk e now ts_unix pid
    process target data_name event_id kind note⟩
  · rw [alert_sink_of_false dk e now ts_unix pid process target data_name event_id kind note h,
       if_pos hopen]
  · rw [alert_sink_of_false dk e now ts_unix pid process target data_name event_id kind note h,
       if_neg (by rw [hclosed]; exact Bool.false_ne_true)]

/-- Witness for the amended C2: with an open sink the alert lands in the
channel; the closed-sink half is vacuously discharged. -/
theorem claim_C2_amended_alert_delivery_witness :
    (engChrome.should_suppress dkZero 100 100 "t").1 = false ∧
    engChrome.sink_open = true ∧
    (engChrome.alert dkZero 100 999 100 "p" "t" "d" 12
        "protected_resource_access" "n").sink
      = engChrome.sink ++ [⟨999, 100, "p", "t", "d", 12, "protected_resource_access", "n"⟩] :=
  ⟨by decide, by decide,
   (claim_C2_amended_alert_delivery dkZero engChrome 100 999 100 "p" "t" "d" 12
      "protected_resource_access" "n" (by decide)).1 (by decide)⟩

/-! ### Whitelist-registry monotonicity -/

theorem wl_set_congr (a b : Engine) (f : Nat)
    (h : a.whitelisted_file_objects = b.whitelisted_file_objects) :
    a.wl_set f = b.wl_set f := by
  unfold Engine.wl_set
  rw [h]

theorem insertPid_mem_mono (s : List Nat) (pid p : Nat) (h : p ∈ s) :
    p ∈ insertPid s pid := by
  unfold insertPid
  split
  · exact h
  · exact List.mem_cons_of_mem pid h

theorem learn_wl_mem_mono (e : Engine) (fo pid f p : Nat)
    (h : p ∈ e.wl_set f) :
    p ∈ (e.learn_whitelisted_file_object fo pid).wl_set f := by
  unfold Engine.learn_whitelisted_file_object
  split
  · exact h
  · unfold Engine.wl_set at h ⊢
    dsimp only
    by_cases hff : fo = f
    · subst hff
      rw [lookupA_insertA_self]
      rcases hl : lookupA e.whitelisted_file_objects fo with _ | s
    /- an unknown object has an empty default set, so membership forces a hit -/
      · rw [hl] at h
        exact absurd h (List.not_mem_nil p)
      · rw [hl] at h
        exact insertPid_mem_mono s pid p (by simpa using h)
    · rw [lookupA_insertA_ne e.whitelisted_file_objects fo f _ hff]
      exact h

theorem file_cb_wl_mem_mono (dk : Nat → String → Nat) (os_image : Nat → Option String)
    (e : Engine) (now ts_unix : Nat) (ev : FileEvent) (f p : Nat)
    (h : p ∈ e.wl_set f) :
    p ∈ (e.file_cb dk os_image now ts_unix ev).wl_set f := by
  obtain ⟨pc, hpc⟩ := resolve_process_image_shape os_image e now ev.pid
  have hres : ((e.resolve_process_image os_image now ev.pid).2).wl_set f = e.wl_set f :=
    wl_set_congr _ _ f (by rw [hpc])
  unfold Engine.file_cb
  dsimp only
  split
  · exact h
  · split
    · split
      · exact h
      · split
        · exact h
        · exact h
    · split
      · split
        · exact h
        · exact h
      · split
        · exact h
        · split
          · exact h
          · split
            · split
              · exact learn_wl_mem_mono _ ev.file_object ev.pid f p (by rw [hres]; exact h)
              · rw [hres]
                exact h
            · split
              · obtain ⟨la, sk, hal⟩ := alert_shape dk
                  (e.resolve_process_image os_image now ev.pid).2 now ts_unix ev.pid
                  (e.resolve_process_image os_image now ev.pid).1 _ _ ev.event_id
                  "suspicious_whitelisted_handle_access"
                  "untrusted process touched protected resource via whitelisted file object"
                rw [hal]
                unfold Engine.wl_set
                dsimp only
                rw [hpc]
                simpa [Engine.wl_set] using h
              · obtain ⟨la, sk, hal⟩ := alert_shape dk
                  (e.resolve_process_image os_image now ev.pid).2 now ts_unix ev.pid
                  (e.resolve_process_image os_image now ev.pid).1 _ _ ev.event_id
                  "protected_resource_access"
                  "untrusted process attempted access to protected resource"
                rw [hal]
                unfold Engine.wl_set
                dsimp only
                rw [hpc]
                simpa [Engine.wl_set] using h

theorem step_wl_mem_mono (dk : Nat → String → Nat) (verify : String → TrustResult)
    (os_image : Nat → Option String) (e : Engine) (op : EngOp) (f p : Nat)
    (h : p ∈ e.wl_set f) :
    p ∈ (e.step dk verify os_image op).wl_set f := by
  cases op with
  | procStart now pid image cmdline =>
    obtain ⟨pc, hpc⟩ := on_process_start_shape verify e now pid image cmdline
    rw [Engine.step, wl_set_congr _ _ f (by rw [hpc])]
    exact h
  | nameBind k n => exact h
  | keyClear k => exact h
  | wlLearn fo pid => exact learn_wl_mem_mono e fo pid f p h
  | alertCall now ts_unix pid process target data_name event_id kind note =>
    obtain ⟨la, sk, hal⟩ := alert_shape dk e now ts_unix pid process target
      data_name event_id kind note
    rw [Engine.step, wl_set_congr _ _ f (by rw [hal])]
    exact h
  | fileAccess now ts_unix ev =>
    exact file_cb_wl_mem_mono dk os_image e now ts_unix ev f p h

theorem run_wl_mem_mono (dk : Nat → String → Nat) (verify : String → TrustResult)
    (os_image : Nat → Option String) (e : Engine) (ops : List EngOp) (f p : Nat)
    (h : p ∈ e.wl_set f) :
    p ∈ (e.run dk verify os_image ops).wl_set f := by
  induction ops generalizing e with
  | nil => exact h
  | cons op rest ih =>
    exact ih (e.step dk verify os_image op)
      (step_wl_mem_mono dk verify os_image e op f p h)

theorem wl_mem_owner_nonempty (e : Engine) (f p : Nat) (h : p ∈ e.wl_set f) :
    ∃ s, e.whitelisted_file_object_owner f = some s ∧ s ≠ [] := by
  unfold Engine.wl_set at h
  unfold Engine.whitelisted_file_object_owner
  rcases hl : lookupA e.whitelisted_file_objects f with _ | s
  · rw [hl] at h
    exact absurd h (List.not_mem_nil p)
  · rw [hl] at h
    exact ⟨s, rfl, List.ne_nil_of_mem (by simpa using h)⟩

/-- The suspicious branch of the decision tree: an untrusted access via a
file object with a non-empty whitelisted-owner set raises the
handle-reuse alert. -/
theorem file_cb_suspicious_branch (dk : Nat → String → Nat)
    (os_image : Nat → Option String) (e : Engine) (now ts_unix : Nat)
    (ev : FileEvent) (t data_name sub : String) (s : List Nat)
    (hev : ev.event_id = 12)
    (htarget : e.target_of ev = some t)
    (hrule : e.match_protected_rule t = some (data_name, sub))
    (huntrusted : ((e.resolve_process_image os_image now ev.pid).2).is_pid_trusted now ev.pid
        (e.resolve_process_image os_image now ev.pid).1 = false)
    (hfo : ev.file_object ≠ 0)
    (howner : e.whitelisted_file_object_owner ev.file_object = some s)
    (hne : s ≠ []) :
    e.file_cb dk os_image now ts_unix ev =
      ((e.resolve_process_image os_image now ev.pid).2).alert dk now ts_unix ev.pid
        (e.resolve_process_image os_image now ev.pid).1 t data_name ev.event_id
        "suspicious_whitelisted_handle_access"
        "untrusted process touched protected resource via whitelisted file object" := by
  obtain ⟨pc, hpc⟩ := resolve_process_image_shape os_image e now ev.pid
  have howner1 : ((e.resolve_process_image os_image now ev.pid).2).whitelisted_file_object_owner
      ev.file_object = some s := by
    unfold Engine.whitelisted_file_object_owner at howner ⊢
    rw [hpc]
    exact howner
  unfold Engine.file_cb
  dsimp only
  rw [if_neg (by simp [hev])]
  rw [if_neg (by simp [hev])]
  rw [if_neg (by simp [hev])]
  rw [htarget]
  dsimp only
  rw [hrule]
  dsimp only
  rw [if_neg (by rw [huntrusted]; exact Bool.false_ne_true)]
  rw [if_pos (by
    rw [howner1]
    simp [hfo, hne])]

/-! ### C4: handle-reuse detection (invariant I3) -/

/-- **C4 is false on the code** for the SYSTEM pids: pid 4 is trusted via
the legacy `process_name_allow` suffix `"system"` and accesses the
protected target via file object 7, but `learn_whitelisted_file_object`
refuses to learn for pid 0/4, so when untrusted pid 300 later touches a
protected target via the same file object 7 the owner set is empty and
the emitted alert has kind `protected_resource_access` — not the claimed
`suspicious_whitelisted_handle_access`. -/
theorem claim_C4_counterexample :
    (evSystemFo.event_id = 12 ∧
     evSystemFo.file_object = 7 ∧
     engSystemAllow.target_of evSystemFo = some "C:\\Users\\a\\Login Data" ∧
     engSystemAllow.match_protected_rule "C:\\Users\\a\\Login Data" ≠ none ∧
     ((engSystemAllow.resolve_process_image osImageSigned 1000 evSystemFo.pid).2).is_pid_trusted
        1000 evSystemFo.pid
        (engSystemAllow.resolve_process_image osImageSigned 1000 evSystemFo.pid).1 = true) ∧
    (evIntruder7.event_id = 12 ∧
     evIntruder7.file_object = 7 ∧
     (engSystemAllow.file_cb dkZero osImageSigned 1000 999 evSystemFo).target_of evIntruder7
       = some "C:\\b\\Login Data" ∧
     (engSystemAllow.file_cb dkZero osImageSigned 1000 999 evSystemFo).match_protected_rule
       "C:\\b\\Login Data" ≠ none ∧
     (((engSystemAllow.file_cb dkZero osImageSigned 1000 999 evSystemFo).resolve_process_image
         osImageSigned 2000 evIntruder7.pid).2).is_pid_trusted 2000 evIntruder7.pid
       (((engSystemAllow.file_cb dkZero osImageSigned 1000 999 evSystemFo).resolve_process_image
         osImageSigned 2000 evIntruder7.pid).1) = false) ∧
    ((engSystemAllow.file_cb dkZero osImageSigned 1000 999 evSystemFo).file_cb dkZero
        osImageSigned 2000 1000 evIntruder7).sink.map Alert.kind
      = ["protected_resource_access"] := by
  decide

/-- **C4 (amended)**: restricted to a trusted pid `p ∉ {0, 4}` (for the
SYSTEM pids `learn_whitelisted_file_object` learns nothing, as the
counterexample shows): if such a pid is observed accessing a protected
target via `file_object = f ≠ 0`, then — after any further sequence of
engine operations — an access to any protected target by any untrusted pid
via the same `f` invokes `Engine::alert` with kind
`suspicious_whitelisted_handle_access` (and is therefore emitted subject
only to the per-(pid, target) suppression window). -/
theorem claim_C4_handle_reuse_alert (dk : Nat → String → Nat)
    (verify : String → TrustResult) (os_image : Nat → Option String)
    (e0 eN : Engine) (now1 ts1 now2 ts2 : Nat) (ev1 ev2 : FileEvent)
    (t1 t2 dn2 sub2 : String) (ops : List EngOp)
    (hev1 : ev1.event_id = 12)
    (ht1 : e0.target_of ev1 = some t1)
    (hr1 : e0.match_protected_rule t1 ≠ none)
    (hfo1 : ev1.file_object ≠ 0)
    (hp0 : ev1.pid ≠ 0) (hp4 : ev1.pid ≠ 4)
    (htr1 : ((e0.resolve_process_image os_image now1 ev1.pid).2).is_pid_trusted now1 ev1.pid
        (e0.resolve_process_image os_image now1 ev1.pid).1 = true)
    (heN : eN = (e0.file_cb dk os_image now1 ts1 ev1).run dk verify os_image ops)
    (hev2 : ev2.event_id = 12)
    (hfo2 : ev2.file_object = ev1.file_object)
    (ht2 : eN.target_of ev2 = some t2)
    (hr2 : eN.match_protected_rule t2 = some (dn2, sub2))
    (hun : ((eN.resolve_process_image os_image now2 ev2.pid).2).is_pid_trusted now2 ev2.pid
        (eN.resolve_process_image os_image now2 ev2.pid).1 = false) :
    eN.file_cb dk os_image now2 ts2 ev2 =
      ((eN.resolve_process_image os_image now2 ev2.pid).2).alert dk now2 ts2 ev2.pid
        (eN.resolve_process_image os_image now2 ev2.pid).1 t2 dn2 ev2.event_id
        "suspicious_whitelisted_handle_access"
        "untrusted process touched protected resource via whitelisted file object" := by
  have hlearn : ev1.pid ∈ (e0.file_cb dk os_image now1 ts1 ev1).wl_set ev1.file_object := by
    rw [file_cb_trusted_branch dk os_image e0 now1 ts1 ev1 t1 hev1 ht1 hr1 htr1, if_pos hfo1]
    exact learn_whitelisted_file_object_mem _ ev1.file_object ev1.pid hfo1 hp0 hp4
  have hmono : ev1.pid ∈ eN.wl_set ev1.file_object := by
    rw [heN]
    exact run_wl_mem_mono dk verify os_image _ ops ev1.file_object ev1.pid hlearn
  obtain ⟨s, hs, hne⟩ := wl_mem_owner_nonempty eN ev1.file_object ev1.pid hmono
  exact file_cb_suspicious_branch dk os_image eN now2 ts2 ev2 t2 dn2 sub2 s hev2 ht2 hr2 hun
    (by rw [hfo2]; exact hfo1) (by rw [hfo2]; exact hs) hne

/-- Witness for C4: trusted pid 200 opens the protected store via file
object 171; unknown pid 300 then touches another protected path via the
same object and the handle-reuse alert is raised. -/
theorem claim_C4_handle_reuse_alert_witness :
    (evTrusted171.event_id = 12 ∧
     engTrusted200.target_of evTrusted171 = some "C:\\a\\Login Data" ∧
     engTrusted200.match_protected_rule "C:\\a\\Login Data" ≠ none ∧
     evTrusted171.file_object ≠ 0 ∧ evTrusted171.pid ≠ 0 ∧ evTrusted171.pid ≠ 4 ∧
     ((engTrusted200.resolve_process_image osImageNone 5000 evTrusted171.pid).2).is_pid_trusted
       5000 evTrusted171.pid
       (engTrusted200.resolve_process_image osImageNone 5000 evTrusted171.pid).1 = true ∧
     evIntruder171.event_id = 12 ∧
     evIntruder171.file_object = evTrusted171.file_object ∧
     ((engTrusted200.file_cb dkZero osImageNone 5000 999 evTrusted171).run dkZero
        verifyUnsigned osImageNone []).target_of evIntruder171 = some "C:\\b\\Login Data" ∧
     ((engTrusted200.file_cb dkZero osImageNone 5000 999 evTrusted171).run dkZero
        verifyUnsigned osImageNone []).match_protected_rule "C:\\b\\Login Data"
       = some ("Chrome Passwords", "login data") ∧
     ((((engTrusted200.file_cb dkZero osImageNone 5000 999 evTrusted171).run dkZero
          verifyUnsigned osImageNone []).resolve_process_image osImageNone 6000
          evIntruder171.pid).2).is_pid_trusted 6000 evIntruder171.pid
       (((engTrusted200.file_cb dkZero osImageNone 5000 999 evTrusted171).run dkZero
          verifyUnsigned osImageNone []).resolve_process_image osImageNone 6000
          evIntruder171.pid).1 = false) ∧
    ((engTrusted200.file_cb dkZero osImageNone 5000 999 evTrusted171).run dkZero
        verifyUnsigned osImageNone []).file_cb dkZero osImageNone 6000 1000 evIntruder171 =
      ((((engTrusted200.file_cb dkZero osImageNone 5000 999 evTrusted171).run dkZero
          verifyUnsigned osImageNone []).resolve_process_image osImageNone 6000
          evIntruder171.pid).2).alert dkZero 6000 1000 evIntruder171.pid
        ((((engTrusted200.file_cb dkZero osImageNone 5000 999 evTrusted171).run dkZero
          verifyUnsigned osImageNone []).resolve_process_image osImageNone 6000
          evIntruder171.pid).1) "C:\\b\\Login Data" "Chrome Passwords" evIntruder171.event_id
        "suspicious_whitelisted_handle_access"
        "untrusted process touched protected resource via whitelisted file object" :=
  ⟨⟨by decide, by decide, by decide, by decide, by decide, by decide, by decide,
    by decide, by decide, by decide, by decide, by decide⟩,
   claim_C4_handle_reuse_alert dkZero verifyUnsigned osImageNone engTrusted200
     ((engTrusted200.file_cb dkZero osImageNone 5000 999 evTrusted171).run dkZero
        verifyUnsigned osImageNone [])
     5000 999 6000 1000 evTrusted171 evIntruder171
     "C:\\a\\Login Data" "C:\\b\\Login Data" "Chrome Passwords" "login data" []
     (by decide) (by decide) (by decide) (by decide) (by decide) (by decide) (by decide)
     rfl (by decide) (by decide) (by decide) (by decide) (by decide)⟩

/-! ### C6: bounded dedup map with stale-entry eviction -/

/-- **C6**: whenever a non-suppressed `should_suppress` call records a new
`(pid, target)` timestamp and the resulting `last_alert` map holds more
than 50 000 entries, every entry older than `8 × suppress_window` is
evicted during that same call: no such entry survives in the map the call
leaves behind. -/
theorem claim_C6_last_alert_eviction (dk : Nat → String → Nat) (e : Engine)
    (now pid : Nat) (target : String)
    (hrec : (e.should_suppress dk now pid target).1 = false)
    (hbig : (insertA e.last_alert (dk pid target) now).length > 50000) :
    ∀ q ∈ ((e.should_suppress dk now pid target).2).last_alert,
      ¬ (8 * e.cfg.general.suppress_ms < now - q.2) := by
  intro q hq
  rw [should_suppress_false_last_alert dk e now pid target hrec] at hq
  dsimp only at hq
  rw [if_pos hbig] at hq
  have hfilt := List.of_mem_filter hq
  simp only [decide_eq_true_eq] at hfilt
  omega

theorem lookupA_of_forall_ne {α : Type} (l : List (Nat × α)) (k : Nat)
    (h : ∀ q ∈ l, q.1 ≠ k) : lookupA l k = none := by
  induction l with
  | nil => rfl
  | cons q tl ih =>
    obtain ⟨k', v⟩ := q
    have hq : k' ≠ k := h (k', v) (List.mem_cons_self _ tl)
    simp only [lookupA, if_neg hq]
    exact ih fun r hr => h r (List.mem_cons_of_mem _ hr)

theorem bigLastAlert_def :
    bigLastAlert = (List.range 50001).map fun i => (i + 1, 0) := by
  unfold bigLastAlert
  rfl

theorem bigLastAlert_forall_ne : ∀ q ∈ bigLastAlert, q.1 ≠ 0 := by
  intro q hq
  rw [bigLastAlert_def] at hq
  simp only [List.mem_map, List.mem_range] at hq
  obtain ⟨i, -, rfl⟩ := hq
  simp

theorem engBig_last_alert : engBig.last_alert = bigLastAlert := rfl

theorem dkZero_eq (pid : Nat) (target : String) : dkZero pid target = 0 := rfl

theorem engBig_not_suppressed : (engBig.should_suppress dkZero 7 100 "t").1 = false := by
  have hl : lookupA bigLastAlert 0 = none :=
    lookupA_of_forall_ne bigLastAlert 0 bigLastAlert_forall_ne
  rw [should_suppress_fst, engBig_last_alert, dkZero_eq, hl]

theorem engBig_insert_length :
    (insertA engBig.last_alert (dkZero 100 "t") 7).length > 50000 := by
  rw [engBig_last_alert, dkZero_eq]
  have hfilter : bigLastAlert.filter (fun p => p.1 != 0) = bigLastAlert := by
    apply List.filter_eq_self.mpr
    intro q hq
    have := bigLastAlert_forall_ne q hq
    simp [this]
  unfold insertA
  rw [List.length_cons, hfilter]
  have : bigLastAlert.length = 50001 := by
    rw [bigLastAlert_def]
    simp
  omega

/-- Witness for C6: a map at 50 001 entries takes one more recording and
the call leaves no entry older than eight windows behind. -/
theorem claim_C6_last_alert_eviction_witness :
    (engBig.should_suppress dkZero 7 100 "t").1 = false ∧
    (insertA engBig.last_alert (dkZero 100 "t") 7).length > 50000 ∧
    ∀ q ∈ ((engBig.should_suppress dkZero 7 100 "t").2).last_alert,
      ¬ (8 * engBig.cfg.general.suppress_ms < 7 - q.2) :=
  ⟨engBig_not_suppressed, engBig_insert_length,
   claim_C6_last_alert_eviction dkZero engBig 7 100 "t"
     engBig_not_suppressed engBig_insert_length⟩

end Vigil
